import Mathlib

/-!
Verification of the lowmemorykiller reclaim policy: a shallow embedding of `drivers/staging/android/lowmemorykiller.c`
(and the state touched by `task_notify_func`).  Pure C helpers become
Lean functions; the mutable module state (`lowmem_deathpending`,
`lowmem_deathpending_timeout`) becomes an explicit state record threaded
through `lowmem_shrink`.  Machine arithmetic that can overflow (the
32-bit `unsigned delta` computation) is modelled with explicit `% 2^32`.
-/

namespace Lowmem

/-- Value of `PAGE_SIZE` on the ARM target this driver is built for (4 KiB pages). -/
def PAGE_SIZE : Nat := 4096

/-- Constant `OOM_ADJUST_MAX` from `linux/oom.h`: the largest legal `oom_adj`. -/
def OOM_ADJUST_MAX : Int := 15

/-- Capacity of the parameter arrays: `ARRAY_SIZE(lowmem_adj) = ARRAY_SIZE(lowmem_minfree) = LOWMEM_ADJ_SLOTS`. -/
def LOWMEM_ADJ_SLOTS : Nat := 12

/-- Number of slots of the `ooms_seen` diagnostic buffer
(`kzalloc(sizeof(int) * 20, ...)`, line 106). -/
def OOMS_SEEN_SLOTS : Nat := 20

/-- The page-state counters read through `global_page_state` during one
invocation (all non-negative `unsigned long` counters). -/
structure MemInfo where
  nrFreePages : Nat
  nrFilePages : Nat
  nrShmem : Nat
  nrActiveAnon : Nat
  nrActiveFile : Nat
  nrInactiveAnon : Nat
  nrInactiveFile : Nat
deriving DecidableEq, Repr

/-- One process as the scan loop observes it: pid, `sig->oom_adj`, and
`get_mm_rss(mm)` as the `int tasksize`.  The loop's `!mm || !sig` skip is
the registry's exclusion of non-terminable processes, so a snapshot holds
only processes that passed it. -/
structure Proc where
  pid : Nat
  oomAdj : Int
  rss : Int
deriving DecidableEq, Repr

/-- Module parameters read during a pass: `lowmem_adj` (with its count
`lowmem_adj_size` as the list length), `lowmem_minfree` likewise,
`lowmem_multiplier`, `lowmem_oldmethod`. -/
structure Config where
  adj : List Int
  minfree : List Nat
  multiplier : Nat
  oldmethod : Bool
deriving DecidableEq, Repr

/-- The persistent module state: `lowmem_deathpending` (a task reference,
`none` = NULL, modelled by pid) and `lowmem_deathpending_timeout`. -/
structure SysState where
  deathpending : Option Nat
  deathpendingTimeout : Nat
deriving DecidableEq, Repr

/-- The C comparison `other_free < lowmem_minfree[i]` compares an `int`
against a `size_t`: the `int` is converted to unsigned, so a negative
left operand becomes huge and the comparison is false. -/
def uless (a : Int) (b : Nat) : Bool :=
  decide (0 ≤ a) && decide (a < (b : Int))

/-- The threshold loop of `lowmem_shrink` (lines 119-129): walk
`lowmem_adj`/`lowmem_minfree` in index order, at most `array_size =
min(LOWMEM_ADJ_SLOTS, adj_size, minfree_size)` entries (the fuel is the
static capacity; list lengths are the live sizes), and return the first
`lowmem_adj[i]` whose `lowmem_minfree[i]` exceeds both counters. -/
def resolveGo : Nat → List Int → List Nat → Int → Int → Option Int
  | 0, _, _, _, _ => none
  | _ + 1, [], _, _, _ => none
  | _ + 1, _, [], _, _ => none
  | fuel + 1, a :: as, m :: ms, free, file =>
      if uless free m && uless file m then some a
      else resolveGo fuel as ms free file

/-- Resolution of `min_adj`: `some cutoff` when a tier matched, `none` when
the loop fell through (the caller then keeps `OOM_ADJUST_MAX + 1`). -/
def resolveMinPriority (adj : List Int) (minfree : List Nat)
    (free file : Int) : Option Int :=
  resolveGo LOWMEM_ADJ_SLOTS adj minfree free file

/-- Modelled from the spec (§4.1 ThresholdTable), for comparison with the
code's `resolveMinPriority`: iterate the tiers truncated to the shorter of
the two sequences and return the cutoff of the first index where both the
free count and the file count are below the tier's minimum. -/
def resolveMinPrioritySpec (adj : List Int) (minfree : List Nat)
    (free file : Nat) : Option Int :=
  ((adj.zip minfree).find? fun t => decide (free < t.2) && decide (file < t.2)).map Prod.fst

/-- Value `rem`, the reclaimable estimate (lines 134-137): the sum of the four
active/inactive page counters, as the C `int`. -/
def remEstimate (mem : MemInfo) : Int :=
  ((mem.nrActiveAnon + mem.nrActiveFile + mem.nrInactiveAnon + mem.nrInactiveFile : Nat) : Int)

/-- Embeds `int other_free = global_page_state(NR_FREE_PAGES)` (line 102). -/
def lowmemOtherFree (mem : MemInfo) : Int := (mem.nrFreePages : Int)

/-- Embeds `int other_file = global_page_state(NR_FILE_PAGES) -
global_page_state(NR_SHMEM)` (lines 103-104); may be negative. -/
def lowmemOtherFile (mem : MemInfo) : Int :=
  (mem.nrFilePages : Int) - (mem.nrShmem : Int)

/-- Value `min_adj` as `lowmem_shrink` holds it: the matched cutoff, or
`OOM_ADJUST_MAX + 1` when no tier matched (lines 98, 119-129). -/
def lowmemMinAdj (cfg : Config) (mem : MemInfo) : Int :=
  (resolveMinPriority cfg.adj cfg.minfree (lowmemOtherFree mem) (lowmemOtherFile mem)).getD
    (OOM_ADJUST_MAX + 1)

/-- Reinterpret a 32-bit unsigned value as a signed `int`. -/
def toInt32 (u : Nat) : Int :=
  if u < 2147483648 then (u : Int) else (u : Int) - 4294967296

/-- Embeds `unsigned delta = abs((nr_to_scan * lowmem_multiplier) - tasksize)`
(line 181): the product and difference are 32-bit unsigned arithmetic,
the result is reinterpreted as `int` for `abs`, and the absolute value is
stored unsigned. -/
def cDelta (nrToScan : Int) (mult : Nat) (rss : Int) : Nat :=
  (toInt32 ((nrToScan * (mult : Int) - rss).emod 4294967296).toNat).natAbs

/-- Initial `lowmem_delta = (1048576 * 1024) / PAGE_SIZE` (line 105):
one gigabyte expressed in pages, the sentinel best-delta. -/
def lowmemDeltaInit : Nat := 1048576 * 1024 / PAGE_SIZE

/-- The per-pass selection accumulator: `selected`, `selected_tasksize`,
`selected_oom_adj`, `lowmem_delta`. -/
structure SelState where
  selected : Option Proc
  selectedTasksize : Int
  selectedOomAdj : Int
  lowmemDelta : Nat
deriving DecidableEq, Repr

/-- Accumulator at loop entry: nothing selected, `selected_tasksize = 0`,
`selected_oom_adj = min_adj` (line 143), `lowmem_delta` at its sentinel. -/
def selInit (minAdj : Int) : SelState :=
  { selected := none, selectedTasksize := 0, selectedOomAdj := minAdj,
    lowmemDelta := lowmemDeltaInit }

/-- One iteration of the `for_each_process` body (lines 146-207) for a
process that passed the `!mm || !sig` skip: skip below `min_adj`, skip
non-positive `tasksize`, then either first acceptance, or the
priority / legacy-size / delta tie-break against the current selection. -/
def selStep (cfg : Config) (nrToScan minAdj : Int) (st : SelState) (p : Proc) : SelState :=
  if p.oomAdj < minAdj then st
  else if p.rss ≤ 0 then st
  else
    match st.selected with
    | none =>
        { st with selected := some p, selectedTasksize := p.rss, selectedOomAdj := p.oomAdj }
    | some _ =>
        if p.oomAdj < st.selectedOomAdj then st
        else if cfg.oldmethod then
          if p.oomAdj = st.selectedOomAdj ∧ p.rss ≤ st.selectedTasksize then st
          else
            { st with selected := some p, selectedTasksize := p.rss, selectedOomAdj := p.oomAdj }
        else
          if p.oomAdj = st.selectedOomAdj ∧ st.lowmemDelta < cDelta nrToScan cfg.multiplier p.rss
          then st
          else
            { selected := some p, selectedTasksize := p.rss, selectedOomAdj := p.oomAdj,
              lowmemDelta :=
                if cDelta nrToScan cfg.multiplier p.rss ≤ st.lowmemDelta
                then cDelta nrToScan cfg.multiplier p.rss else st.lowmemDelta }

/-- The whole scan loop over one registry snapshot. -/
def runSelector (cfg : Config) (nrToScan minAdj : Int) (procs : List Proc) : SelState :=
  procs.foldl (selStep cfg nrToScan minAdj) (selInit minAdj)

/-- What one `lowmem_shrink` invocation produced: its `int` return value,
the module state it leaves behind, the `force_sig(SIGKILL, ...)` target
(`none` = no kill), and whether the registry scan loop was entered. -/
structure ShrinkResult where
  ret : Int
  state : SysState
  killed : Option Proc
  scanned : Bool
deriving DecidableEq, Repr

/-- Function `lowmem_shrink` (lines 91-232).  Guard check first (return 0 before
any threshold lookup); then `min_adj` resolution and the reclaimable
estimate; the `nr_to_scan <= 0 || min_adj == OOM_ADJUST_MAX + 1` early
return; otherwise the scan, and on success the kill: arm the guard with
`jiffies + HZ`, record the victim, and return `rem - selected_tasksize`. -/
def lowmem_shrink (cfg : Config) (mem : MemInfo) (procs : List Proc)
    (jiffies hz : Nat) (nrToScan : Int) (st : SysState) : ShrinkResult :=
  if st.deathpending.isSome ∧ jiffies ≤ st.deathpendingTimeout then
    { ret := 0, state := st, killed := none, scanned := false }
  else if nrToScan ≤ 0 ∨ lowmemMinAdj cfg mem = OOM_ADJUST_MAX + 1 then
    { ret := remEstimate mem, state := st, killed := none, scanned := false }
  else
    match (runSelector cfg nrToScan (lowmemMinAdj cfg mem) procs).selected with
    | none => { ret := remEstimate mem, state := st, killed := none, scanned := true }
    | some v =>
        { ret := remEstimate mem -
            (runSelector cfg nrToScan (lowmemMinAdj cfg mem) procs).selectedTasksize,
          state := { deathpending := some v.pid, deathpendingTimeout := jiffies + hz },
          killed := some v, scanned := true }

/-- Callback `task_notify_func` (lines 80-89): clear `lowmem_deathpending` exactly
when the exiting task is the pending one. -/
def task_notify_func (pending : Option Nat) (tid : Nat) : Option Nat :=
  if pending = some tid then none else pending

/-- The indices at which the scan writes into the `ooms_seen` diagnostic
buffer (lines 161-162): one write at index `oom_adj` for every observed
process with `oom_adj > -1`; the only guard is that lower bound. -/
def oomsSeenWrites (procs : List Proc) : List Int :=
  (procs.filter fun p => -1 < p.oomAdj).map fun p => p.oomAdj

/-- Eligibility as the scan loop enforces it before the tie-break:
`min_adj ≤ oom_adj` and `0 < tasksize`. -/
def eligible (minAdj : Int) (p : Proc) : Prop :=
  minAdj ≤ p.oomAdj ∧ 0 < p.rss

instance (minAdj : Int) (p : Proc) : Decidable (eligible minAdj p) := by
  unfold eligible; infer_instance

/-- Invariant of the scan loop over the processes seen so far: with no
selection, nothing seen was eligible; with a selection `v`, `v` is a seen
eligible process, the accumulator's size and priority fields describe `v`,
and `v`'s priority is maximal among the eligible processes seen. -/
def SelInv (minAdj : Int) (seen : List Proc) (st : SelState) : Prop :=
  (st.selected = none → ∀ p ∈ seen, ¬ eligible minAdj p) ∧
  ∀ v, st.selected = some v →
    v ∈ seen ∧ eligible minAdj v ∧ st.selectedTasksize = v.rss ∧
    st.selectedOomAdj = v.oomAdj ∧
    ∀ p ∈ seen, eligible minAdj p → p.oomAdj ≤ v.oomAdj

lemma SelInv_skip_ineligible {minAdj : Int} {seen : List Proc} {st : SelState} {p : Proc}
    (h : SelInv minAdj seen st) (hp : ¬ eligible minAdj p) :
    SelInv minAdj (seen ++ [p]) st := by
  obtain ⟨h0, h1⟩ := h
  refine ⟨fun hn q hq => ?_, fun v hv => ?_⟩
  · rcases List.mem_append.1 hq with hq | hq
    · exact h0 hn q hq
    · rcases List.mem_singleton.1 hq with rfl; exact hp
  · obtain ⟨hm, he, hts, hoa, hmax⟩ := h1 v hv
    refine ⟨List.mem_append.2 (Or.inl hm), he, hts, hoa, fun q hq hqe => ?_⟩
    rcases List.mem_append.1 hq with hq | hq
    · exact hmax q hq hqe
    · rcases List.mem_singleton.1 hq with rfl; exact absurd hqe hp

lemma SelInv_skip_bounded {minAdj : Int} {seen : List Proc} {st : SelState} {p v : Proc}
    (h : SelInv minAdj seen st) (hv : st.selected = some v)
    (hle : p.oomAdj ≤ v.oomAdj) :
    SelInv minAdj (seen ++ [p]) st := by
  obtain ⟨h0, h1⟩ := h
  refine ⟨fun hn => ?_, fun w hw => ?_⟩
  · rw [hn] at hv; exact absurd hv (by simp)
  · obtain ⟨hm, he, hts, hoa, hmax⟩ := h1 w hw
    have hwv : w = v := by rw [hw] at hv; exact Option.some_injective _ hv
    subst hwv
    refine ⟨List.mem_append.2 (Or.inl hm), he, hts, hoa, fun q hq hqe => ?_⟩
    rcases List.mem_append.1 hq with hq | hq
    · exact hmax q hq hqe
    · rcases List.mem_singleton.1 hq with rfl; exact hle

lemma SelInv_accept {minAdj : Int} {seen : List Proc} {st : SelState} {p : Proc}
    (h : SelInv minAdj seen st) (hp : eligible minAdj p)
    (hub : ∀ v, st.selected = some v → v.oomAdj ≤ p.oomAdj)
    (st' : SelState) (hsel : st'.selected = some p)
    (hts : st'.selectedTasksize = p.rss) (hoa : st'.selectedOomAdj = p.oomAdj) :
    SelInv minAdj (seen ++ [p]) st' := by
  obtain ⟨h0, h1⟩ := h
  refine ⟨fun hn => ?_, fun w hw => ?_⟩
  · rw [hn] at hsel; exact absurd hsel.symm (by simp)
  · have hwp : w = p := Option.some_injective _ (hw.symm.trans hsel)
    subst hwp
    refine ⟨List.mem_append.2 (Or.inr (List.mem_singleton.2 rfl)), hp, hts, hoa,
      fun q hq hqe => ?_⟩
    rcases List.mem_append.1 hq with hq | hq
    · rcases hv : st.selected with _ | v
      · exact absurd hqe (h0 hv q hq)
      · obtain ⟨_, _, _, _, hmax⟩ := h1 v hv
        exact le_trans (hmax q hq hqe) (hub v hv)
    · rcases List.mem_singleton.1 hq with rfl; exact le_refl _

lemma selStep_inv (cfg : Config) (n minAdj : Int) (seen : List Proc)
    (st : SelState) (p : Proc) (h : SelInv minAdj seen st) :
    SelInv minAdj (seen ++ [p]) (selStep cfg n minAdj st p) := by
  obtain ⟨sel, ts, oa, d⟩ := st
  by_cases hadj : p.oomAdj < minAdj
  · have hst : selStep cfg n minAdj ⟨sel, ts, oa, d⟩ p = ⟨sel, ts, oa, d⟩ := by
      unfold selStep; rw [if_pos hadj]
    rw [hst]
    exact SelInv_skip_ineligible h (fun he => absurd he.1 (not_le.2 hadj))
  · by_cases hrss : p.rss ≤ 0
    · have hst : selStep cfg n minAdj ⟨sel, ts, oa, d⟩ p = ⟨sel, ts, oa, d⟩ := by
        unfold selStep; rw [if_neg hadj, if_pos hrss]
      rw [hst]
      exact SelInv_skip_ineligible h (fun he => absurd he.2 (not_lt.2 hrss))
    · have hp : eligible minAdj p := ⟨not_lt.1 hadj, not_le.1 hrss⟩
      rcases sel with _ | v
      · have hst : selStep cfg n minAdj ⟨none, ts, oa, d⟩ p =
            ⟨some p, p.rss, p.oomAdj, d⟩ := by
          unfold selStep; rw [if_neg hadj, if_neg hrss]
        rw [hst]
        exact SelInv_accept h hp (fun v hv => by simp at hv) _ rfl rfl rfl
      · have hoa : oa = v.oomAdj := (h.2 v rfl).2.2.2.1
        by_cases hlt : p.oomAdj < oa
        · have hst : selStep cfg n minAdj ⟨some v, ts, oa, d⟩ p =
              ⟨some v, ts, oa, d⟩ := by
            unfold selStep; rw [if_neg hadj, if_neg hrss]
            simp only [if_pos hlt]
          rw [hst]
          exact SelInv_skip_bounded h rfl (le_of_lt (hoa ▸ hlt))
        · have hge : v.oomAdj ≤ p.oomAdj := hoa ▸ not_lt.1 hlt
          by_cases hold : cfg.oldmethod
          · by_cases hsk : p.oomAdj = oa ∧ p.rss ≤ ts
            · have hst : selStep cfg n minAdj ⟨some v, ts, oa, d⟩ p =
                  ⟨some v, ts, oa, d⟩ := by
                unfold selStep; rw [if_neg hadj, if_neg hrss]
                simp only [if_neg hlt, if_pos hold, if_pos hsk]
              rw [hst]
              exact SelInv_skip_bounded h rfl (le_of_eq (hoa ▸ hsk.1))
            · have hst : selStep cfg n minAdj ⟨some v, ts, oa, d⟩ p =
                  ⟨some p, p.rss, p.oomAdj, d⟩ := by
                unfold selStep; rw [if_neg hadj, if_neg hrss]
                simp only [if_neg hlt, if_pos hold, if_neg hsk]
              rw [hst]
              refine SelInv_accept h hp (fun w hw => ?_) _ rfl rfl rfl
              have : w = v := (Option.some_injective _ hw).symm
              subst this; exact hge
          · by_cases hsk : p.oomAdj = oa ∧ d < cDelta n cfg.multiplier p.rss
            · have hst : selStep cfg n minAdj ⟨some v, ts, oa, d⟩ p =
                  ⟨some v, ts, oa, d⟩ := by
                unfold selStep; rw [if_neg hadj, if_neg hrss]
                simp only [if_neg hlt, if_neg hold, if_pos hsk]
              rw [hst]
              exact SelInv_skip_bounded h rfl (le_of_eq (hoa ▸ hsk.1))
            · have hst : selStep cfg n minAdj ⟨some v, ts, oa, d⟩ p =
                  ⟨some p, p.rss, p.oomAdj,
                    if cDelta n cfg.multiplier p.rss ≤ d
                    then cDelta n cfg.multiplier p.rss else d⟩ := by
                unfold selStep; rw [if_neg hadj, if_neg hrss]
                simp only [if_neg hlt, if_neg hold, if_neg hsk]
              rw [hst]
              refine SelInv_accept h hp (fun w hw => ?_) _ rfl rfl rfl
              have : w = v := (Option.some_injective _ hw).symm
              subst this; exact hge

lemma SelInv_foldl (cfg : Config) (n minAdj : Int) :
    ∀ (procs seen : List Proc) (st : SelState), SelInv minAdj seen st →
      SelInv minAdj (seen ++ procs) (procs.foldl (selStep cfg n minAdj) st)
  | [], seen, st, h => by simpa using h
  | p :: ps, seen, st, h => by
      have h1 := selStep_inv cfg n minAdj seen st p h
      have h2 := SelInv_foldl cfg n minAdj ps (seen ++ [p]) _ h1
      simpa [List.append_assoc] using h2

lemma runSelector_inv (cfg : Config) (n minAdj : Int) (procs : List Proc) :
    SelInv minAdj procs (runSelector cfg n minAdj procs) := by
  have h0 : SelInv minAdj [] (selInit minAdj) := by
    constructor
    · intro _ p hp; exact absurd hp (List.not_mem_nil p)
    · intro v hv; simp [selInit] at hv
  have := SelInv_foldl cfg n minAdj procs [] (selInit minAdj) h0
  simpa [runSelector] using this

lemma uless_natCast (k m : Nat) : uless (k : Int) m = decide (k < m) := by
  by_cases h : k < m
  · simp [uless, h, Int.natCast_nonneg, Nat.cast_lt.2 h]
  · simp [uless, h, fun hc => h (Nat.cast_lt.1 hc)]

lemma resolveGo_spec :
    ∀ (adj : List Int) (fuel : Nat) (minfree : List Nat) (free file : Nat),
      adj.length ≤ fuel →
      resolveGo fuel adj minfree (free : Int) (file : Int) =
        resolveMinPrioritySpec adj minfree free file
  | [], fuel, minfree, free, file, _ => by
      cases fuel <;> simp [resolveGo, resolveMinPrioritySpec]
  | a :: as, 0, minfree, free, file, hlen => by
      exact absurd hlen (by simp)
  | a :: as, fuel + 1, [], free, file, _ => by
      simp [resolveGo, resolveMinPrioritySpec]
  | a :: as, fuel + 1, m :: ms, free, file, hlen => by
      have ih := resolveGo_spec as fuel ms free file
        (by simpa using Nat.lt_succ_iff.1 (lt_of_lt_of_le (by simp) hlen))
      by_cases hm : free < m ∧ file < m
      · simp [resolveGo, resolveMinPrioritySpec, uless_natCast, hm.1, hm.2]
      · rcases Decidable.not_and_iff_or_not.1 hm with hm' | hm' <;>
          simp [resolveGo, resolveMinPrioritySpec, uless_natCast, hm'] <;>
          simpa [resolveMinPrioritySpec] using ih

/-- C1 (counterexample): default mode, `nr_to_scan = 10`, multiplier 36,
two equal-priority eligible candidates with footprints 300 and 500
presented in the order 300 then 500: the pass selects the 500-page
candidate, not the 300-page one — `lowmem_delta` still sits at its 1 GiB
sentinel when the 500-page candidate is compared, so its delta of 140 does
not exceed the bound and it replaces the 300-page selection. -/
theorem c1_order_dependent_counterexample :
    (runSelector ⟨[0], [1536], 36, false⟩ 10 0
      [⟨1, 0, 300⟩, ⟨2, 0, 500⟩]).selected = some ⟨2, 0, 500⟩ ∧
    (⟨2, 0, 500⟩ : Proc).rss ≠ 300 := by
  constructor
  · rfl
  · decide

/-- C1 (amended): in default mode with `nr_to_scan = 10` and multiplier 36,
the first accepted candidate does **not** seed the best-delta bound: the
bound stays at the sentinel `(1048576 * 1024) / PAGE_SIZE` until an
equal-or-higher-priority successor's delta is computed and found no larger.
Hence with the two equal-priority candidates of footprints 300 and 500 the
outcome is order-dependent: presented as 500 then 300, the 300-page
candidate (delta 60) wins; presented as 300 then 500, the 500-page
candidate (delta 140 ≤ sentinel) replaces the 300-page one and wins. -/
theorem c1_default_mode_selection :
    (runSelector ⟨[0], [1536], 36, false⟩ 10 0
      [⟨1, 0, 500⟩, ⟨2, 0, 300⟩]).selected = some ⟨2, 0, 300⟩ ∧
    (runSelector ⟨[0], [1536], 36, false⟩ 10 0
      [⟨1, 0, 300⟩, ⟨2, 0, 500⟩]).selected = some ⟨2, 0, 500⟩ ∧
    (runSelector ⟨[0], [1536], 36, false⟩ 10 0
      [⟨1, 0, 300⟩]).lowmemDelta = lowmemDeltaInit := by
  refine ⟨rfl, rfl, rfl⟩

/-- C3: for configuration sequences that fit the 12-slot parameter arrays,
the threshold loop of `lowmem_shrink` computes exactly the spec's
first-matching-tier function: tiers are consulted in index order,
truncated to the shorter of the two sequences (`List.zip`), the first
index whose minimum exceeds both the free count and the file count yields
its cutoff, and `none` is returned when no index matches. -/
theorem c3_resolveMinPriority_spec (adj : List Int) (minfree : List Nat)
    (h1 : adj.length ≤ LOWMEM_ADJ_SLOTS) (h2 : minfree.length ≤ LOWMEM_ADJ_SLOTS)
    (free file : Nat) :
    resolveMinPriority adj minfree (free : Int) (file : Int) =
      resolveMinPrioritySpec adj minfree free file :=
  resolveGo_spec adj LOWMEM_ADJ_SLOTS minfree free file h1

/-- C3 (witness): the spec's concrete scenario — tiers
`[(0,1536), (1,2048), (6,4096), (12,16384)]`, free = 3000, file = 1000 —
resolves to priority cutoff 6. -/
theorem c3_resolveMinPriority_spec_witness :
    ([0, 1, 6, 12] : List Int).length ≤ LOWMEM_ADJ_SLOTS ∧
    resolveMinPriority [0, 1, 6, 12] [1536, 2048, 4096, 16384]
      ((3000 : Nat) : Int) ((1000 : Nat) : Int) = some 6 :=
  ⟨by decide,
    (c3_resolveMinPriority_spec [0, 1, 6, 12] [1536, 2048, 4096, 16384]
      (by decide) (by decide) 3000 1000).trans (by decide)⟩

/-- C8: an exit notification clears the pending-victim reference exactly
when the exiting task is the pending one; a notification for any other id
leaves the pending state unchanged. -/
theorem c8_notify_clears_matching (i tid : Nat) :
    task_notify_func (some i) tid = if tid = i then none else some i := by
  unfold task_notify_func
  by_cases h : tid = i
  · simp [h]
  · simp [h, Ne.symm h]

/-- C8 (witness): with pending id 42, a notification for id 7 leaves the
guard pending and a notification for id 42 clears it. -/
theorem c8_notify_clears_matching_witness :
    task_notify_func (some 42) 7 = some 42 ∧ task_notify_func (some 42) 42 = none :=
  ⟨by rw [c8_notify_clears_matching 42 7]; decide,
   by rw [c8_notify_clears_matching 42 42]; decide⟩

/-- C10: the `ooms_seen` histogram increment is guarded only by
`oom_adj > -1` before indexing the 20-slot buffer at the raw `oom_adj`;
every write of a snapshot lands in bounds iff every non-negative priority
in the snapshot is at most 19. -/
theorem c10_ooms_seen_bounds (procs : List Proc) :
    (∀ a ∈ oomsSeenWrites procs, a < (OOMS_SEEN_SLOTS : Int)) ↔
      ∀ p ∈ procs, 0 ≤ p.oomAdj → p.oomAdj ≤ 19 := by
  unfold oomsSeenWrites OOMS_SEEN_SLOTS
  constructor
  · intro h p hp hpos
    have := h p.oomAdj (List.mem_map.2 ⟨p, List.mem_filter.2 ⟨hp, by simpa using hpos⟩, rfl⟩)
    omega
  · intro h a ha
    obtain ⟨p, hp, rfl⟩ := List.mem_map.1 ha
    have hp' := List.mem_filter.1 hp
    have hpos : (-1 : Int) < p.oomAdj := by simpa using hp'.2
    have := h p hp'.1 (by omega)
    omega

/-- C10 (witness): a process at priority 25 is counted (the only guard is
the lower bound), and its write falls outside the 20-slot buffer. -/
theorem c10_ooms_seen_bounds_witness :
    oomsSeenWrites [⟨1, 25, 10⟩] = [25] ∧
    ¬ (∀ a ∈ oomsSeenWrites [⟨1, 25, 10⟩], a < (OOMS_SEEN_SLOTS : Int)) :=
  ⟨by decide,
   (not_congr (c10_ooms_seen_bounds [⟨1, 25, 10⟩])).2 (by decide)⟩

/-- C4: whenever the scan loop ends with a victim, that victim is an
eligible member of the snapshot and its priority is the maximum priority
among all eligible candidates — strictly lower-priority candidates are
always skipped and strictly higher-priority ones always replace the
selection, so the selection's priority never decreases during a pass. -/
theorem c4_selector_priority_max (cfg : Config) (n minAdj : Int)
    (procs : List Proc) (v : Proc)
    (h : (runSelector cfg n minAdj procs).selected = some v) :
    v ∈ procs ∧ eligible minAdj v ∧
      ∀ p ∈ procs, eligible minAdj p → p.oomAdj ≤ v.oomAdj := by
  obtain ⟨hm, he, _, _, hmax⟩ := (runSelector_inv cfg n minAdj procs).2 v h
  exact ⟨hm, he, hmax⟩

/-- C4 (witness): a priority-12 candidate with footprint 50 is selected
over a previously-selected priority-6 candidate with footprint 10000, and
12 is the maximal eligible priority of that snapshot. -/
theorem c4_selector_priority_max_witness :
    (⟨2, 12, 50⟩ : Proc) ∈ [(⟨1, 6, 10000⟩ : Proc), ⟨2, 12, 50⟩] ∧
    eligible 0 ⟨2, 12, 50⟩ ∧
    ∀ p ∈ [(⟨1, 6, 10000⟩ : Proc), ⟨2, 12, 50⟩],
      eligible 0 p → p.oomAdj ≤ (Proc.mk 2 12 50).oomAdj :=
  c4_selector_priority_max ⟨[0], [1536], 36, false⟩ 10 0
    [⟨1, 6, 10000⟩, ⟨2, 12, 50⟩] ⟨2, 12, 50⟩ rfl

/-- C7: in legacy mode, an eligible candidate of priority equal to the
current selection's replaces it exactly when its footprint is strictly
greater than the current selection's footprint. -/
theorem c7_legacy_equal_priority (cfg : Config) (n minAdj : Int)
    (st : SelState) (p q : Proc)
    (hold : cfg.oldmethod = true) (hsel : st.selected = some q)
    (hadj : minAdj ≤ p.oomAdj) (hrss : 0 < p.rss)
    (heq : p.oomAdj = st.selectedOomAdj) :
    (selStep cfg n minAdj st p).selected =
      if st.selectedTasksize < p.rss then some p else some q := by
  obtain ⟨sel, ts, oa, d⟩ := st
  simp only at heq hsel ⊢
  subst hsel
  have hnlt : ¬ p.oomAdj < oa := by omega
  unfold selStep
  rw [if_neg (not_lt.2 hadj), if_neg (not_le.2 hrss)]
  simp only [if_neg hnlt, hold, if_true]
  by_cases hts : ts < p.rss
  · rw [if_neg (fun hc : _ ∧ _ => absurd hc.2 (not_le.2 hts)), if_pos hts]
  · rw [if_pos ⟨heq, not_lt.1 hts⟩, if_neg hts]

/-- C7 (witness): two equal-priority candidates with footprints 100 and
250 pages — in either presentation order the legacy-mode pass chooses the
250-page candidate; the step applied to the 100-page selection accepts
the strictly larger 250-page candidate. -/
theorem c7_legacy_equal_priority_witness :
    (runSelector ⟨[0], [1536], 36, true⟩ 10 0
      [⟨1, 5, 100⟩, ⟨2, 5, 250⟩]).selected = some ⟨2, 5, 250⟩ ∧
    (runSelector ⟨[0], [1536], 36, true⟩ 10 0
      [⟨1, 5, 250⟩, ⟨2, 5, 100⟩]).selected = some ⟨1, 5, 250⟩ ∧
    (selStep ⟨[0], [1536], 36, true⟩ 10 0
      ⟨some ⟨1, 5, 100⟩, 100, 5, lowmemDeltaInit⟩ ⟨2, 5, 250⟩).selected =
        some ⟨2, 5, 250⟩ :=
  ⟨rfl, rfl, by
    rw [c7_legacy_equal_priority ⟨[0], [1536], 36, true⟩ 10 0
      ⟨some ⟨1, 5, 100⟩, 100, 5, lowmemDeltaInit⟩ ⟨2, 5, 250⟩ ⟨1, 5, 100⟩
      rfl rfl (by decide) (by decide) rfl]
    decide⟩

/-- C2 (counterexample): with victim 42 pending and the deadline not yet
reached (`jiffies = 3 ≤ 10`), the invocation does return without scanning
or killing, but its return value is 0, not the reclaimable estimate of
100 pages. -/
theorem c2_debounce_counterexample :
    (lowmem_shrink ⟨[0], [1536], 36, false⟩ ⟨0, 0, 0, 100, 0, 0, 0⟩
        [⟨7, 3, 50⟩] 3 100 16 ⟨some 42, 10⟩).ret = 0 ∧
    remEstimate ⟨0, 0, 0, 100, 0, 0, 0⟩ = 100 ∧
    (lowmem_shrink ⟨[0], [1536], 36, false⟩ ⟨0, 0, 0, 100, 0, 0, 0⟩
        [⟨7, 3, 50⟩] 3 100 16 ⟨some 42, 10⟩).ret ≠
      remEstimate ⟨0, 0, 0, 100, 0, 0, 0⟩ := by
  refine ⟨rfl, rfl, by decide⟩

/-- C2 (amended): while a victim is pending and the debounce deadline has
not elapsed, any invocation performs no registry scan, no new selection
and no kill, leaves the guard state unchanged, and returns 0 — telling the
host it has nothing to offer on this pass — rather than the reclaimable
estimate. -/
theorem c2_debounce_blocks (cfg : Config) (mem : MemInfo) (procs : List Proc)
    (jiffies hz : Nat) (n : Int) (st : SysState)
    (h1 : st.deathpending.isSome = true) (h2 : jiffies ≤ st.deathpendingTimeout) :
    lowmem_shrink cfg mem procs jiffies hz n st =
      { ret := 0, state := st, killed := none, scanned := false } := by
  unfold lowmem_shrink
  rw [if_pos ⟨by simp [h1], h2⟩]

/-- C2 (amended, witness): a concrete blocked invocation returns
`⟨0, unchanged state, no kill, no scan⟩`. -/
theorem c2_debounce_blocks_witness :
    lowmem_shrink ⟨[0], [1536], 36, false⟩ ⟨0, 0, 0, 100, 0, 0, 0⟩
        [⟨7, 3, 50⟩] 3 100 16 ⟨some 42, 10⟩ =
      { ret := 0, state := ⟨some 42, 10⟩, killed := none, scanned := false } :=
  c2_debounce_blocks ⟨[0], [1536], 36, false⟩ ⟨0, 0, 0, 100, 0, 0, 0⟩
    [⟨7, 3, 50⟩] 3 100 16 ⟨some 42, 10⟩ (by decide) (by decide)

/-- C5: whenever an invocation kills a victim, it records the victim as
pending with deadline `jiffies + HZ` (one tick window), delivers the
fatal signal without waiting (the pass ends immediately after
`force_sig`), and returns the reclaimable estimate minus the victim's
footprint in pages. -/
theorem c5_kill_path (cfg : Config) (mem : MemInfo) (procs : List Proc)
    (jiffies hz : Nat) (n : Int) (st : SysState) (v : Proc)
    (h : (lowmem_shrink cfg mem procs jiffies hz n st).killed = some v) :
    lowmem_shrink cfg mem procs jiffies hz n st =
      { ret := remEstimate mem - v.rss,
        state := { deathpending := some v.pid, deathpendingTimeout := jiffies + hz },
        killed := some v, scanned := true } := by
  unfold lowmem_shrink at h ⊢
  split_ifs at h ⊢ with h1 h2
  rcases hsel : (runSelector cfg n (lowmemMinAdj cfg mem) procs).selected with _ | w
  · rw [hsel] at h
    exact absurd h (by simp)
  · rw [hsel] at h
    have hw : w = v := by simpa using h
    subst hw
    have hts := ((runSelector_inv cfg n (lowmemMinAdj cfg mem) procs).2 w hsel).2.2.1
    simp [hts]

/-- C5 (witness): a concrete kill — guard idle, tier 0 matched, one
eligible process of footprint 100 with estimate 600 — returns 500, and
arms the guard with victim 7 and deadline 50 + 100. -/
theorem c5_kill_path_witness :
    lowmem_shrink ⟨[0, 1, 6, 12], [1536, 2048, 4096, 16384], 36, false⟩
        ⟨1000, 1200, 0, 500, 100, 0, 0⟩ [⟨7, 3, 100⟩] 50 100 16 ⟨none, 0⟩ =
      { ret := remEstimate ⟨1000, 1200, 0, 500, 100, 0, 0⟩ - (Proc.mk 7 3 100).rss,
        state := { deathpending := some 7, deathpendingTimeout := 50 + 100 },
        killed := some ⟨7, 3, 100⟩, scanned := true } :=
  c5_kill_path ⟨[0, 1, 6, 12], [1536, 2048, 4096, 16384], 36, false⟩
    ⟨1000, 1200, 0, 500, 100, 0, 0⟩ [⟨7, 3, 100⟩] 50 100 16 ⟨none, 0⟩
    ⟨7, 3, 100⟩ (by decide)

/-- C6 (counterexample): an invocation with `nr_to_scan = 0` while victim
42 is pending within its deadline returns 0, not the reclaimable estimate
of 100 pages — the debounce check precedes the non-positive-request
early return. -/
theorem c6_nonpositive_counterexample :
    (lowmem_shrink ⟨[0], [1536], 36, false⟩ ⟨0, 0, 0, 60, 40, 0, 0⟩
        [⟨7, 3, 50⟩] 3 100 0 ⟨some 42, 10⟩).ret = 0 ∧
    remEstimate ⟨0, 0, 0, 60, 40, 0, 0⟩ = 100 ∧
    (lowmem_shrink ⟨[0], [1536], 36, false⟩ ⟨0, 0, 0, 60, 40, 0, 0⟩
        [⟨7, 3, 50⟩] 3 100 0 ⟨some 42, 10⟩).ret ≠
      remEstimate ⟨0, 0, 0, 60, 40, 0, 0⟩ := by
  refine ⟨rfl, rfl, by decide⟩

/-- C6 (amended): an invocation with `nr_to_scan ≤ 0` never selects or
kills a victim and leaves the guard state unchanged; it returns the
reclaimable estimate unless the debounce guard is blocking, in which case
it returns 0; under unchanged external state a repeated call returns the
same result (idempotence). -/
theorem c6_nonpositive_query (cfg : Config) (mem : MemInfo) (procs : List Proc)
    (jiffies hz : Nat) (n : Int) (st : SysState) (h : n ≤ 0) :
    (lowmem_shrink cfg mem procs jiffies hz n st).killed = none ∧
    (lowmem_shrink cfg mem procs jiffies hz n st).state = st ∧
    (lowmem_shrink cfg mem procs jiffies hz n st).ret =
      (if st.deathpending.isSome ∧ jiffies ≤ st.deathpendingTimeout then 0
        else remEstimate mem) ∧
    lowmem_shrink cfg mem procs jiffies hz n
        ((lowmem_shrink cfg mem procs jiffies hz n st).state) =
      lowmem_shrink cfg mem procs jiffies hz n st := by
  have hmain : lowmem_shrink cfg mem procs jiffies hz n st =
      if st.deathpending.isSome ∧ jiffies ≤ st.deathpendingTimeout then
        { ret := 0, state := st, killed := none, scanned := false }
      else { ret := remEstimate mem, state := st, killed := none, scanned := false } := by
    unfold lowmem_shrink
    by_cases hb : st.deathpending.isSome ∧ jiffies ≤ st.deathpendingTimeout
    · rw [if_pos hb, if_pos hb]
    · rw [if_neg hb, if_neg hb, if_pos (Or.inl h)]
  by_cases hb : st.deathpending.isSome ∧ jiffies ≤ st.deathpendingTimeout
  · rw [hmain, if_pos hb]
    exact ⟨rfl, rfl, (if_pos hb).symm, by
      show lowmem_shrink cfg mem procs jiffies hz n st = _
      rw [hmain, if_pos hb]⟩
  · rw [hmain, if_neg hb]
    exact ⟨rfl, rfl, (if_neg hb).symm, by
      show lowmem_shrink cfg mem procs jiffies hz n st = _
      rw [hmain, if_neg hb]⟩

/-- C6 (amended, witness): a concrete `nr_to_scan = 0` query with the
guard idle kills nothing, keeps the state, returns the estimate, and a
repeated call returns the same result. -/
theorem c6_nonpositive_query_witness :
    (lowmem_shrink ⟨[0], [1536], 36, false⟩ ⟨0, 0, 0, 60, 40, 0, 0⟩
        [⟨7, 3, 50⟩] 3 100 0 ⟨none, 0⟩).killed = none ∧
    (lowmem_shrink ⟨[0], [1536], 36, false⟩ ⟨0, 0, 0, 60, 40, 0, 0⟩
        [⟨7, 3, 50⟩] 3 100 0 ⟨none, 0⟩).state = ⟨none, 0⟩ ∧
    (lowmem_shrink ⟨[0], [1536], 36, false⟩ ⟨0, 0, 0, 60, 40, 0, 0⟩
        [⟨7, 3, 50⟩] 3 100 0 ⟨none, 0⟩).ret =
      (if (SysState.mk none 0).deathpending.isSome ∧ 3 ≤ (SysState.mk none 0).deathpendingTimeout
        then 0 else remEstimate ⟨0, 0, 0, 60, 40, 0, 0⟩) ∧
    lowmem_shrink ⟨[0], [1536], 36, false⟩ ⟨0, 0, 0, 60, 40, 0, 0⟩
        [⟨7, 3, 50⟩] 3 100 0
        ((lowmem_shrink ⟨[0], [1536], 36, false⟩ ⟨0, 0, 0, 60, 40, 0, 0⟩
          [⟨7, 3, 50⟩] 3 100 0 ⟨none, 0⟩).state) =
      lowmem_shrink ⟨[0], [1536], 36, false⟩ ⟨0, 0, 0, 60, 40, 0, 0⟩
        [⟨7, 3, 50⟩] 3 100 0 ⟨none, 0⟩ :=
  c6_nonpositive_query ⟨[0], [1536], 36, false⟩ ⟨0, 0, 0, 60, 40, 0, 0⟩
    [⟨7, 3, 50⟩] 3 100 0 ⟨none, 0⟩ (by decide)

/-- C9 (counterexample): with estimate 10 pages and a sole eligible victim
of footprint 100, the kill path returns `10 - 100 = -90`: the returned
"reclaimable estimate" is a signed value and goes negative; the claim
that it is always a non-negative unsigned count fails. -/
theorem c9_negative_return_counterexample :
    (lowmem_shrink ⟨[0], [1536], 36, false⟩ ⟨0, 0, 0, 10, 0, 0, 0⟩
        [⟨7, 3, 100⟩] 0 100 16 ⟨none, 0⟩).ret = -90 ∧
    (lowmem_shrink ⟨[0], [1536], 36, false⟩ ⟨0, 0, 0, 10, 0, 0, 0⟩
        [⟨7, 3, 100⟩] 0 100 16 ⟨none, 0⟩).ret < 0 := by
  refine ⟨rfl, by decide⟩

/-- C9 (amended): the return value is non-negative iff on the kill path
the victim's footprint does not exceed the reclaimable sum; the code does
not clamp — on every non-kill path the return (0 or the non-negative
estimate) is non-negative, and on the kill path the subtraction is signed
and unchecked. -/
theorem c9_return_sign (cfg : Config) (mem : MemInfo) (procs : List Proc)
    (jiffies hz : Nat) (n : Int) (st : SysState) :
    0 ≤ (lowmem_shrink cfg mem procs jiffies hz n st).ret ↔
      ∀ v, (lowmem_shrink cfg mem procs jiffies hz n st).killed = some v →
        v.rss ≤ remEstimate mem := by
  have hge : (0 : Int) ≤ remEstimate mem := by unfold remEstimate; positivity
  unfold lowmem_shrink
  split_ifs with h1 h2
  · simp
  · simp [hge]
  · rcases hsel : (runSelector cfg n (lowmemMinAdj cfg mem) procs).selected with _ | w
    · simp [hge]
    · have hts := ((runSelector_inv cfg n (lowmemMinAdj cfg mem) procs).2 w hsel).2.2.1
      simp [hts, sub_nonneg]

/-- C9 (amended, witness): at the concrete negative-return scenario the
equivalence holds: the return is not non-negative, matching the victim's
footprint 100 exceeding the estimate 10. -/
theorem c9_return_sign_witness :
    (0 ≤ (lowmem_shrink ⟨[0], [1536], 36, false⟩ ⟨0, 0, 0, 10, 0, 0, 0⟩
        [⟨8, 3, 100⟩] 0 100 16 ⟨none, 0⟩).ret ↔
      ∀ v, (lowmem_shrink ⟨[0], [1536], 36, false⟩ ⟨0, 0, 0, 10, 0, 0, 0⟩
          [⟨8, 3, 100⟩] 0 100 16 ⟨none, 0⟩).killed = some v →
        v.rss ≤ remEstimate ⟨0, 0, 0, 10, 0, 0, 0⟩) :=
  c9_return_sign ⟨[0], [1536], 36, false⟩ ⟨0, 0, 0, 10, 0, 0, 0⟩
    [⟨8, 3, 100⟩] 0 100 16 ⟨none, 0⟩

end Lowmem
